import Mathlib

set_option linter.unusedVariables false

/-! Shallow embedding of the RAG (retrieval-augmented generation) subsystem of
the Tesseract debate-coaching assistant: the keyword retrieval processor
(`src/core/rag_engine/rag_processor.py`) and the embedding retrieval pipeline
(`src/utils/rag_pipeline.py`), together with the result cache, the fallback
generation chain, knowledge persistence and the md5-based cache-key and
item-id derivations.  Python strings are modelled as lists of characters
(ASCII-faithful lowercasing), Python dicts as insertion-ordered association
lists, float division as exact rational arithmetic, the cosine similarity of
the embedding strategy over the reals, and the external OpenAI completion
call as an explicit oracle argument whose invocations are counted. -/

/-- Python strings, modelled as lists of characters. -/
abbrev Str := List Char

/-- The characters on which Python `str.split()` (no separator) splits:
ASCII whitespace.  (Unicode whitespace is out of the modelled alphabet.) -/
def isPySpace (c : Char) : Bool :=
  c = ' ' || c = '\t' || c = '\n' || c = '\x0d' || c = '\x0b' || c = '\x0c'

/-- Python `str.lower()`, restricted to ASCII case mapping. -/
def pyLower (s : Str) : Str := s.map Char.toLower

/-- Worker for `pySplit`: accumulates the current (reversed) token. -/
def pySplitGo : Str → Str → List Str
  | [], acc => if acc.isEmpty then [] else [acc.reverse]
  | c :: cs, acc =>
    if isPySpace c then
      if acc.isEmpty then pySplitGo cs [] else acc.reverse :: pySplitGo cs []
    else pySplitGo cs (c :: acc)

/-- Python `str.split()` with no separator: split on runs of whitespace,
discarding empty tokens. -/
def pySplit (s : Str) : List Str := pySplitGo s []

/-- Boolean test that `needle` is a prefix of `hay`. -/
def isPrefixTok : Str → Str → Bool
  | [], _ => true
  | _ :: _, [] => false
  | a :: as, b :: bs => a == b && isPrefixTok as bs

/-- Python's substring containment `needle in hay`. -/
def containsSub (needle : Str) : Str → Bool
  | [] => isPrefixTok needle []
  | c :: rest => isPrefixTok needle (c :: rest) || containsSub needle rest

/-! ## MD5 (`hashlib.md5(...).hexdigest()`), over `Nat` arithmetic mod 2^32 -/

/-- 2^32, the modulus of all 32-bit MD5 arithmetic. -/
def m32 : Nat := 4294967296

/-- 32-bit bitwise complement (input already reduced mod 2^32). -/
def not32 (x : Nat) : Nat := 4294967295 ^^^ x % m32

/-- 32-bit left rotation by `s`. -/
def rotl32 (x s : Nat) : Nat :=
  x % m32 * 2 ^ s % m32 + x % m32 / 2 ^ (32 - s)

/-- The 64 MD5 round constants (floor of 2^32 times the absolute sines). -/
def md5K : List Nat :=
  [3614090360, 3905402710, 606105819, 3250441966, 4118548399, 1200080426,
   2821735955, 4249261313, 1770035416, 2336552879, 4294925233, 2304563134,
   1804603682, 4254626195, 2792965006, 1236535329, 4129170786, 3225465664,
   643717713, 3921069994, 3593408605, 38016083, 3634488961, 3889429448,
   568446438, 3275163606, 4107603335, 1163531501, 2850285829, 4243563512,
   1735328473, 2368359562, 4294588738, 2272392833, 1839030562, 4259657740,
   2763975236, 1272893353, 4139469664, 3200236656, 681279174, 3936430074,
   3572445317, 76029189, 3654602809, 3873151461, 530742520, 3299628645,
   4096336452, 1126891415, 2878612391, 4237533241, 1700485571, 2399980690,
   4293915773, 2240044497, 1873313359, 4264355552, 2734768916, 1309151649,
   4149444226, 3174756917, 718787259, 3951481745]

/-- The 64 MD5 per-round left-rotation amounts. -/
def md5S : List Nat :=
  [7, 12, 17, 22, 7, 12, 17, 22, 7, 12, 17, 22, 7, 12, 17, 22,
   5, 9, 14, 20, 5, 9, 14, 20, 5, 9, 14, 20, 5, 9, 14, 20,
   4, 11, 16, 23, 4, 11, 16, 23, 4, 11, 16, 23, 4, 11, 16, 23,
   6, 10, 15, 21, 6, 10, 15, 21, 6, 10, 15, 21, 6, 10, 15, 21]

/-- The MD5 nonlinear function and message-word index for round `i`. -/
def md5F (i b c d : Nat) : Nat × Nat :=
  if i < 16 then ((b &&& c) ||| (not32 b &&& d), i % 16)
  else if i < 32 then ((d &&& b) ||| (not32 d &&& c), (5 * i + 1) % 16)
  else if i < 48 then (b ^^^ c ^^^ d, (3 * i + 5) % 16)
  else (c ^^^ (b ||| not32 d), 7 * i % 16)

/-- One MD5 round over the running state `(a, b, c, d)`. -/
def md5Round (M : List Nat) (st : Nat × Nat × Nat × Nat) (i : Nat) :
    Nat × Nat × Nat × Nat :=
  match st with
  | (a, b, c, d) =>
    match md5F i b c d with
    | (f, g) =>
      let f2 := (f + a + md5K.getD i 0 + M.getD g 0) % m32
      (d, (b + rotl32 f2 (md5S.getD i 0)) % m32, b, c)

/-- Group a chunk of bytes into little-endian 32-bit words. -/
def leWords : List Nat → List Nat
  | b0 :: b1 :: b2 :: b3 :: rest =>
    (b0 + 256 * (b1 + 256 * (b2 + 256 * b3))) :: leWords rest
  | _ => []

/-- Process one 64-byte MD5 chunk. -/
def md5Chunk (st : Nat × Nat × Nat × Nat) (chunk : List Nat) :
    Nat × Nat × Nat × Nat :=
  match st with
  | (a0, b0, c0, d0) =>
    match (List.range 64).foldl (md5Round (leWords chunk)) (a0, b0, c0, d0) with
    | (a, b, c, d) =>
      ((a0 + a) % m32, (b0 + b) % m32, (c0 + c) % m32, (d0 + d) % m32)

/-- Process all 64-byte chunks of an (already padded) message. -/
def md5Chunks (bytes : List Nat) (st : Nat × Nat × Nat × Nat) :
    Nat × Nat × Nat × Nat :=
  match bytes with
  | [] => st
  | b :: bs => md5Chunks (bs.drop 63) (md5Chunk st ((b :: bs).take 64))
termination_by bytes.length
decreasing_by simp [List.length_drop]; omega

/-- The 8-byte little-endian encoding of `n` (used for the MD5 bit length). -/
def le8 (n : Nat) : List Nat :=
  [n % 256, n / 256 % 256, n / 65536 % 256, n / 16777216 % 256,
   n / 4294967296 % 256, n / 1099511627776 % 256,
   n / 281474976710656 % 256, n / 72057594037927936 % 256]

/-- The 4-byte little-endian encoding of a 32-bit word. -/
def le4 (n : Nat) : List Nat :=
  [n % 256, n / 256 % 256, n / 65536 % 256, n / 16777216 % 256]

/-- MD5 padding: a 0x80 byte, zeros to 56 mod 64, then the 64-bit bit length. -/
def md5Pad (msg : List Nat) : List Nat :=
  msg ++ [128] ++ List.replicate ((119 - msg.length % 64) % 64) 0 ++
    le8 (8 * msg.length)

/-- Lowercase hexadecimal digit for `n < 16`. -/
def hexDigit (n : Nat) : Char :=
  if n < 10 then Char.ofNat (48 + n) else Char.ofNat (87 + n)

/-- Two lowercase hex characters for one byte. -/
def byteHex (b : Nat) : Str := [hexDigit (b / 16), hexDigit (b % 16)]

/-- `hashlib.md5(bytes).hexdigest()`: the 32-character lowercase hex digest. -/
def md5hex (bytes : List Nat) : Str :=
  match md5Chunks (md5Pad bytes) (1732584193, 4023233417, 2562383102, 271733878) with
  | (a, b, c, d) => ((le4 a ++ le4 b ++ le4 c ++ le4 d).map byteHex).flatten

/-- UTF-8 encoding of one character (Python `str.encode()` per character). -/
def utf8EncodeChar (c : Char) : List Nat :=
  let n := c.toNat
  if n < 128 then [n]
  else if n < 2048 then [192 + n / 64, 128 + n % 64]
  else if n < 65536 then [224 + n / 4096, 128 + n / 64 % 64, 128 + n % 64]
  else [240 + n / 262144, 128 + n / 4096 % 64, 128 + n / 64 % 64, 128 + n % 64]

/-- Python `str.encode()`: UTF-8 bytes of a string. -/
def utf8Encode (s : Str) : List Nat := (s.map utf8EncodeChar).flatten

/-! ## Keyword retrieval (`RAGProcessor._retrieve_from_simple_index`) -/

/-- One record of the keyword knowledge index (`knowledge_index.json`).
Fields are optional exactly because the code reads them with
`item_data.get("text", "")` and `item_data.get("source", "unknown")`. -/
structure ItemData where
  text? : Option Str
  source? : Option Str
  created_at? : Option Str
deriving DecidableEq, Repr

/-- `item_data.get("text", "")`. -/
def ItemData.text (d : ItemData) : Str := d.text?.getD []

/-- `item_data.get("source", "unknown")`. -/
def ItemData.source (d : ItemData) : Str := d.source?.getD "unknown".data

/-- The processor's knowledge index `self.knowledge_index`: a Python dict,
modelled as an insertion-ordered association list with unique keys. -/
abbrev KnowledgeIndex := List (Str × ItemData)

/-- A retrieved chunk, as built by `_retrieve_from_simple_index`: a dict with
exactly the keys `id`, `text`, `source` and `relevance_score`.  The Python
float score is modelled as an exact rational. -/
structure RInfo where
  id : Str
  text : Str
  source : Str
  relevance_score : ℚ
deriving DecidableEq, Repr

/-- The fixed stop-word set of `_retrieve_from_simple_index`. -/
def stopWords : List Str :=
  ["with", "that", "from", "this", "have", "they", "their", "what", "when",
   "where", "which", "than"].map String.data

/-- `set([term.lower() for term in s.split() if len(term) > 3])`, as a
duplicate-free list.  (Only membership and cardinality of this set are ever
used by the code, so the unspecified Python set iteration order is
irrelevant.) -/
def setTerms (s : Str) : List Str :=
  (((pySplit s).filter (fun t => 3 < t.length)).map pyLower).dedup

/-- The term set before stop-word filtering: query terms, unioned with
context terms when `context` is truthy (a `None` or empty context
contributes nothing). -/
def baseTerms (query : Str) (context : Option Str) : List Str :=
  match context with
  | none => setTerms query
  | some c => if c.isEmpty then setTerms query else (setTerms query ++ setTerms c).dedup

/-- The final, stop-word-filtered term list `query_terms`. -/
def queryTerms (query : Str) (context : Option Str) : List Str :=
  (baseTerms query context).filter (fun t => t ∉ stopWords)

/-- The integer `score` of one knowledge item: how many of the query terms
occur as substrings of the item's lowercased text. -/
def itemScore (terms : List Str) (text : Str) : Nat :=
  (terms.filter (fun t => containsSub t (pyLower text))).length

/-- The scoring step of the retrieval loop body: a positive-scoring item
yields a result dict with `relevance_score = score / max(1, len(query_terms))`
(exact rational division, via `mkRat`), a zero-scoring item is skipped. -/
def scoreItem (terms : List Str) (p : Str × ItemData) : Option RInfo :=
  let n := itemScore terms p.2.text
  if 0 < n then
    some { id := p.1, text := p.2.text, source := p.2.source,
           relevance_score := mkRat n (max 1 terms.length) }
  else none

/-- The descending-score ordering used by
`results.sort(key=lambda x: x["relevance_score"], reverse=True)`. -/
def scoreGE (a b : RInfo) : Prop := b.relevance_score ≤ a.relevance_score

instance : DecidableRel scoreGE := fun a b =>
  inferInstanceAs (Decidable (b.relevance_score ≤ a.relevance_score))

instance : IsTotal RInfo scoreGE :=
  ⟨fun a b => le_total b.relevance_score a.relevance_score⟩

instance : IsTrans RInfo scoreGE :=
  ⟨fun _ _ _ h1 h2 => le_trans h2 h1⟩

/-- `RAGProcessor._retrieve_from_simple_index`: score every item of the
index, keep the positive scores, sort by descending relevance with a stable
sort (Python's `list.sort` is stable; so is `List.insertionSort`), and return
the top 3.  Since `_retrieve_from_vector_db` is a placeholder that falls back
to this same function, this is also `_retrieve_relevant_information`. -/
def retrieveFromSimpleIndex (idx : KnowledgeIndex) (query : Str)
    (context : Option Str) : List RInfo :=
  ((idx.filterMap (scoreItem (queryTerms query context))).insertionSort
    scoreGE).take 3

/-! ## The RAG processor: cache, generation fallback chain, knowledge add -/

/-- The full response dict of `retrieve_and_generate`: it has exactly the
keys `query`, `retrieved_information`, `response` and `sources` on every
path of the code. -/
structure RAGResult where
  query : Str
  retrieved_information : List RInfo
  response : Str
  sources : List Str
deriving DecidableEq, Repr

/-- The mutable state of a `RAGProcessor` instance: the configured API key
(read once from the environment), the knowledge index, and the unbounded
retrieval cache (a dict keyed by md5 hex strings). -/
structure RAGState where
  openai_api_key : Str
  knowledge_index : KnowledgeIndex
  retrieval_cache : List (Str × RAGResult)
deriving DecidableEq, Repr

/-- The external OpenAI chat-completions call of `_generate_with_context`,
as an oracle: given the query and the retrieved chunks it either yields the
completion content or fails (network error, non-2xx, malformed body — the
code converts every failure into a raised exception caught by the caller). -/
def GenOracle : Type := Str → List RInfo → Except Str Str

/-- Counters for the externally observable work of one
`retrieve_and_generate` call. -/
structure Effects where
  retrievals : Nat
  externalCalls : Nat
deriving DecidableEq, Repr

/-- The literal fallback response when no API key is configured. -/
def fallbackNoKey : Str :=
  "OpenAI API key not configured. Using just retrieved information.".data

/-- The literal fallback response when the external completion call fails. -/
def fallbackError : Str := "Could not generate enhanced response.".data

/-- Python dict lookup on an association list (first, hence unique, match). -/
def lookupA {β : Type} (k : Str) : List (Str × β) → Option β
  | [] => none
  | p :: rest => if k = p.1 then some p.2 else lookupA k rest

/-- Python dict assignment `d[k] = v`: overwrite in place when the key is
present, append at the end otherwise. -/
def insertA {β : Type} (k : Str) (v : β) : List (Str × β) → List (Str × β)
  | [] => [(k, v)]
  | p :: rest => if k = p.1 then (k, v) :: rest else p :: insertA k v rest

/-- `f"{query}_{context_str}"` with `context_str = context or ""`. -/
def joinKey (query : Str) (context : Option Str) : Str :=
  query ++ "_".data ++ context.getD []

/-- `RAGProcessor._get_cache_key`: the md5 hex digest of the UTF-8 bytes of
the underscore-joined query and context. -/
def cacheKey (query : Str) (context : Option Str) : Str :=
  md5hex (utf8Encode (joinKey query context))

/-- `RAGProcessor.retrieve_and_generate`.  Returns the response dict, the
successor state, and the effect counters.  On a cache hit the cached dict is
returned as-is with no retrieval and no external call; on a miss the index
is scored once, then: with a truthy API key the oracle is invoked exactly
once, a failure being converted into the `fallbackError` response; with no
key the `fallbackNoKey` response is built directly.  The result is cached
before returning.  Every path is total: the Python function never raises. -/
def retrieveAndGenerate (gen : GenOracle) (s : RAGState) (query : Str)
    (context : Option Str) : RAGResult × RAGState × Effects :=
  match lookupA (cacheKey query context) s.retrieval_cache with
  | some r => (r, s, ⟨0, 0⟩)
  | none =>
    let retrieved := retrieveFromSimpleIndex s.knowledge_index query context
    let result :=
      if s.openai_api_key.isEmpty then
        { query := query, retrieved_information := retrieved,
          response := fallbackNoKey,
          sources := retrieved.map RInfo.source }
      else
        match gen query retrieved with
        | Except.ok content =>
          { query := query, retrieved_information := retrieved,
            response := content,
            sources := retrieved.map RInfo.source }
        | Except.error _ =>
          { query := query, retrieved_information := retrieved,
            response := fallbackError,
            sources := retrieved.map RInfo.source }
    (result,
     { s with retrieval_cache :=
         insertA (cacheKey query context) result s.retrieval_cache },
     ⟨1, if s.openai_api_key.isEmpty then 0 else 1⟩)

/-- The id used by `RAGProcessor.add_to_knowledge_base`: `now` is the
formatted `time.time()` value (external input); a falsy (absent or empty)
`item_id` is replaced by the first 12 hex characters of
`md5(f"{text}_{source}_{time.time()}")`. -/
def addId (text source : Str) (item_id : Option Str) (now : Str) : Str :=
  let genId :=
    (md5hex (utf8Encode (text ++ "_".data ++ source ++ "_".data ++ now))).take 12
  match item_id with
  | none => genId
  | some i => if i.isEmpty then genId else i

/-- `RAGProcessor.add_to_knowledge_base`: the new record is stored under
`addId` (a present key would be overwritten in place, a fresh one appended),
and the whole updated index is written to disk by `_save_knowledge_index`.
Returns the id, the successor state, and the written index. -/
def addToKnowledgeBase (s : RAGState) (text source : Str)
    (item_id : Option Str) (now : Str) : Str × RAGState × KnowledgeIndex :=
  let id := addId text source item_id now
  let newIndex :=
    insertA id ⟨some text, some source, some now⟩ s.knowledge_index
  (id, { s with knowledge_index := newIndex }, newIndex)

/-! ## Keyword-side persistence (`_load_knowledge_index` and the defaults) -/

/-- The state of `data/knowledge_base/knowledge_index.json` as the loader
sees it: `none` = file absent, `some none` = file present but unreadable or
malformed JSON, `some (some idx)` = file parses to the index `idx`. -/
def DiskIndex : Type := Option (Option KnowledgeIndex)

/-- `RAGProcessor._create_default_index()`, with `now` standing for the
`time.time()` stamps. -/
def defaultIndex (now : Str) : KnowledgeIndex :=
  [("logical_fallacies".data,
    ⟨some ("Logical fallacies are errors in reasoning that undermine the logic of an argument. Common fallacies include ad hominem (attacking the person), straw man (misrepresenting an opponent's argument), false dichotomy (presenting only two options when others exist), and appeal to authority (using an authority figure to support an argument without evidence).".data),
     some ("Logical Reasoning Guide".data), some now⟩),
   ("argument_structure".data,
    ⟨some ("A strong argument typically consists of a clear claim or thesis statement, supporting evidence (facts, statistics, examples), and a conclusion that follows logically from the evidence. The claim should be specific and debatable, the evidence should be relevant and credible, and the conclusion should summarize the argument and restate the main points.".data),
     some ("Debate Handbook".data), some now⟩),
   ("speech_fillers".data,
    ⟨some ("Filler words like 'um', 'uh', 'like', and 'you know' can detract from the clarity and impact of speech. Speakers who use excessive fillers may be perceived as less confident or knowledgeable. Techniques to reduce fillers include pausing instead of using fillers, recording and analyzing your speech, and practicing speaking more slowly and deliberately.".data),
     some ("Public Speaking Guide".data), some now⟩)]

/-- `RAGProcessor._load_knowledge_index`: an existing file that parses is
returned verbatim (even when it holds zero items); a missing or unparseable
file is replaced by the default index, which is also persisted (the second
component is the index written to disk, if any). -/
def loadKnowledgeIndex (disk : DiskIndex) (now : Str) :
    KnowledgeIndex × Option KnowledgeIndex :=
  match disk with
  | some (some idx) => (idx, none)
  | some none => (defaultIndex now, some (defaultIndex now))
  | none => (defaultIndex now, some (defaultIndex now))


/-! ## Embedding retrieval (`RAGPipeline`, `src/utils/rag_pipeline.py`) -/

/-- A knowledge item as stored in the `data/knowledge` JSON files: the
embedding is optional (computed lazily), the topic is read with
`item.get("topic", "")`, the title/content/source are accessed directly.
Stored float vectors are modelled as exact rationals. -/
structure KItemJ where
  title : Str
  topic? : Option Str
  content : Str
  source : Str
  embedding : Option (List ℚ)
deriving DecidableEq, Repr

/-- An in-memory knowledge item after `_load_knowledge_base` has attached
its embedding. -/
structure KItem where
  title : Str
  topic? : Option Str
  content : Str
  source : Str
  embedding : List ℚ
deriving DecidableEq, Repr

/-- `item.get("topic", "")`. -/
def KItem.topic (it : KItem) : Str := it.topic?.getD []

/-- The embedding-attachment step of `_load_knowledge_base`: items without
an `embedding` key get `model.encode(title + ". " + content)`, where `enc`
is the external sentence-transformer model. -/
def attachEmbedding (enc : Str → List ℚ) (it : KItemJ) : KItem :=
  { title := it.title, topic? := it.topic?, content := it.content,
    source := it.source,
    embedding := it.embedding.getD (enc (it.title ++ ". ".data ++ it.content)) }

/-- `RAGPipeline._create_sample_knowledge()`. -/
def sampleKnowledge : List KItemJ :=
  [{ title := "Climate Change Evidence".data,
     topic? := some "climate change".data,
     content := "Multiple lines of evidence confirm that Earth's climate is changing. Global temperatures have risen by about 1.1Â°C since the late 19th century. The rate of warming has doubled since 1981. The past decade was the warmest on record. This warming is primarily driven by human emissions of greenhouse gases, particularly carbon dioxide from burning fossil fuels.".data,
     source := "Scientific consensus".data, embedding := none },
   { title := "Renewable Energy Benefits".data,
     topic? := some "renewable energy".data,
     content := "Renewable energy sources like solar and wind power produce electricity without generating greenhouse gas emissions during operation. They have minimal environmental impact compared to fossil fuels and help combat climate change. Additionally, the cost of renewable technologies has decreased significantly, making them economically competitive with conventional energy sources in many markets.".data,
     source := "Energy research".data, embedding := none },
   { title := "Social Media Regulation".data,
     topic? := some "social media".data,
     content := "Social media platforms face increasing calls for regulation due to concerns about privacy, misinformation, and content moderation. Potential regulatory approaches include mandating transparency in algorithms, implementing stronger data protection laws, establishing oversight boards, and clarifying platform liability for user content. Critics argue excessive regulation could stifle innovation and free speech.".data,
     source := "Policy research".data, embedding := none },
   { title := "Free College Education".data,
     topic? := some "education".data,
     content := "Proponents of free college education argue it would increase access, reduce student debt, and create a more educated workforce. Opponents contend it would be prohibitively expensive, potentially reduce educational quality, and disproportionately benefit middle and upper-class families who would attend college anyway rather than addressing deeper inequalities in the education system.".data,
     source := "Education policy analysis".data, embedding := none }]

/-- `RAGPipeline._load_knowledge_base`.  `files` holds the parse result of
each `.json` file of the knowledge directory (`none` = unreadable, skipped
with a warning; a single-object file is a one-element list).  When the
directory yields no items the sample knowledge is created and persisted
(second component: the one file write, before embeddings are attached, which
is why the saved copy has no embeddings).  Embeddings are then attached to
every item that lacks one. -/
def loadKnowledgeBase (enc : Str → List ℚ)
    (files : List (Option (List KItemJ))) : List KItem × Option (List KItemJ) :=
  let items := (files.filterMap id).flatten
  if items.isEmpty then
    (sampleKnowledge.map (attachEmbedding enc), some sampleKnowledge)
  else
    (items.map (attachEmbedding enc), none)

/-- The float dot product of two stored vectors, as an exact rational. -/
def dotQ (u v : List ℚ) : ℚ := (List.zipWith (fun a b => a * b) u v).sum

/-- `sklearn.metrics.pairwise.cosine_similarity` of two vectors: the dot
product over the product of the Euclidean norms (real-valued because of the
square roots). -/
noncomputable def cosineSim (u v : List ℚ) : ℝ :=
  ((dotQ u v : ℚ) : ℝ) /
    (Real.sqrt ((dotQ u u : ℚ) : ℝ) * Real.sqrt ((dotQ v v : ℚ) : ℝ))

/-- A retrieved pipeline item: `item_copy` of `RAGPipeline.retrieve` — every
key of the knowledge item except `embedding`, plus the attached
`relevance_score` (generic in the score type). -/
structure RetItem (α : Type) where
  title : Str
  topic? : Option Str
  content : Str
  source : Str
  relevance_score : α
deriving DecidableEq, Repr

/-- The descending-similarity ordering used by
`sorted(similarities, key=lambda x: x[1], reverse=True)`. -/
def simGE {α : Type} [LinearOrder α] (a b : KItem × α) : Prop := b.2 ≤ a.2

instance {α : Type} [LinearOrder α] : DecidableRel (simGE (α := α)) :=
  fun a b => inferInstanceAs (Decidable (b.2 ≤ a.2))

instance {α : Type} [LinearOrder α] : IsTotal (KItem × α) simGE :=
  ⟨fun a b => le_total b.2 a.2⟩

instance {α : Type} [LinearOrder α] : IsTrans (KItem × α) simGE :=
  ⟨fun _ _ _ h1 h2 => le_trans h2 h1⟩

/-- `RAGPipeline.retrieve`, generic in the similarity function `sim` (the
claims instantiate `sim := cosineSim`, `enc` being the external encoder):
empty-base and empty-candidate short circuits, optional substring topic
filter, similarity of the encoded query against every candidate, stable
descending sort, top-`top_k`, embeddings stripped from the returned dicts. -/
def retrieveGen {α : Type} [LinearOrder α] (sim : List ℚ → List ℚ → α)
    (enc : Str → List ℚ) (kb : List KItem) (query topic : Str)
    (top_k : Nat) : List (RetItem α) :=
  if kb.isEmpty then []
  else
    let candidates :=
      if topic.isEmpty then kb
      else kb.filter (fun it => containsSub (pyLower topic) (pyLower it.topic))
    if candidates.isEmpty then []
    else
      let qe := enc query
      let sorted :=
        (candidates.map (fun it => (it, sim qe it.embedding))).insertionSort simGE
      (sorted.take top_k).map (fun p =>
        { title := p.1.title, topic? := p.1.topic?, content := p.1.content,
          source := p.1.source, relevance_score := p.2 })

/-! ## Helper lemmas about the association-list dictionary model -/

theorem lookupA_insertA_self {β : Type} (k : Str) (v : β) (l : List (Str × β)) :
    lookupA k (insertA k v l) = some v := by
  induction l with
  | nil => simp [insertA, lookupA]
  | cons p rest ih =>
    by_cases h : k = p.1
    · simp [insertA, h, lookupA]
    · simp [insertA, h, lookupA, ih]

theorem mem_of_lookupA {β : Type} {k : Str} {v : β} {l : List (Str × β)}
    (h : lookupA k l = some v) : (k, v) ∈ l := by
  induction l with
  | nil => simp [lookupA] at h
  | cons p rest ih =>
    rcases p with ⟨pk, pv⟩
    by_cases hk : k = pk
    · simp only [lookupA, if_pos hk] at h
      obtain rfl : pv = v := Option.some.inj h
      exact hk ▸ List.mem_cons_self _ _
    · simp only [lookupA, if_neg hk] at h
      exact List.mem_cons_of_mem _ (ih h)

theorem mem_insertA {β : Type} {k : Str} {v : β} {l : List (Str × β)} {p : Str × β}
    (h : p ∈ insertA k v l) : p = (k, v) ∨ p ∈ l := by
  induction l with
  | nil => simpa [insertA] using h
  | cons q rest ih =>
    by_cases hk : k = q.1
    · simp only [insertA, if_pos hk] at h
      rcases List.mem_cons.1 h with h1 | h1
      · exact Or.inl h1
      · exact Or.inr (List.mem_cons_of_mem _ h1)
    · simp only [insertA, if_neg hk] at h
      rcases List.mem_cons.1 h with h1 | h1
      · exact Or.inr (h1 ▸ List.mem_cons_self _ _)
      · rcases ih h1 with h2 | h2
        · exact Or.inl h2
        · exact Or.inr (List.mem_cons_of_mem _ h2)

theorem insertA_of_fresh {β : Type} {k : Str} (v : β) {l : List (Str × β)}
    (h : k ∉ l.map Prod.fst) : insertA k v l = l ++ [(k, v)] := by
  induction l with
  | nil => rfl
  | cons q rest ih =>
    simp only [List.map_cons, List.mem_cons] at h
    push_neg at h
    simp [insertA, h.1, ih h.2]

/-! ## Helper lemmas about keyword retrieval -/

theorem mkRat_natCast_eq_div (n m : Nat) : mkRat n m = (n : ℚ) / (m : ℚ) := by
  rw [Rat.mkRat_eq_div]; push_cast; rfl

theorem nodup_baseTerms (q : Str) (c : Option Str) : (baseTerms q c).Nodup := by
  cases c with
  | none => exact List.nodup_dedup _
  | some cs =>
    by_cases hcs : cs.isEmpty
    · simp only [baseTerms, if_pos hcs]; exact List.nodup_dedup _
    · simp only [baseTerms, if_neg hcs]; exact List.nodup_dedup _

theorem nodup_queryTerms (q : Str) (c : Option Str) : (queryTerms q c).Nodup :=
  (nodup_baseTerms q c).filter _

theorem length_mem_setTerms {t s : Str} (h : t ∈ setTerms s) : 3 < t.length := by
  unfold setTerms at h
  rw [List.mem_dedup] at h
  obtain ⟨w, hw, rfl⟩ := List.mem_map.1 h
  have h3 : 3 < w.length := by simpa using (List.mem_filter.1 hw).2
  simpa [pyLower] using h3

theorem mem_baseTerms {t q : Str} {c : Option Str} (h : t ∈ baseTerms q c) :
    3 < t.length := by
  cases c with
  | none => exact length_mem_setTerms h
  | some cs =>
    by_cases hcs : cs.isEmpty
    · rw [baseTerms, if_pos hcs] at h
      exact length_mem_setTerms h
    · rw [baseTerms, if_neg hcs] at h
      rcases List.mem_append.1 (List.mem_dedup.1 h) with h1 | h1
      · exact length_mem_setTerms h1
      · exact length_mem_setTerms h1

theorem mem_queryTerms {t q : Str} {c : Option Str} (h : t ∈ queryTerms q c) :
    3 < t.length ∧ t ∉ stopWords := by
  rcases List.mem_filter.1 h with ⟨hmem, hstop⟩
  exact ⟨mem_baseTerms hmem, by simpa using hstop⟩

theorem scoreItem_eq_some {terms : List Str} {p : Str × ItemData} {r : RInfo}
    (h : scoreItem terms p = some r) :
    0 < itemScore terms p.2.text ∧
      r = ⟨p.1, p.2.text, p.2.source,
           mkRat (itemScore terms p.2.text) (max 1 terms.length)⟩ := by
  by_cases h0 : 0 < itemScore terms p.2.text
  · refine ⟨h0, ?_⟩
    simp only [scoreItem, if_pos h0] at h
    exact (Option.some.inj h).symm
  · simp [scoreItem, h0] at h

theorem mem_retrieveFromSimpleIndex {idx : KnowledgeIndex} {q : Str}
    {c : Option Str} {r : RInfo} (h : r ∈ retrieveFromSimpleIndex idx q c) :
    ∃ p, p ∈ idx ∧ scoreItem (queryTerms q c) p = some r := by
  unfold retrieveFromSimpleIndex at h
  have h1 : r ∈ (idx.filterMap (scoreItem (queryTerms q c))).insertionSort scoreGE :=
    (List.take_sublist _ _).subset h
  rw [List.mem_insertionSort] at h1
  exact List.mem_filterMap.1 h1

theorem filterMap_scoreItem_nil (idx : KnowledgeIndex) :
    idx.filterMap (scoreItem []) = [] := by
  rw [List.filterMap_eq_nil_iff]
  intro p hp
  simp [scoreItem, itemScore]

/-! ## Claim theorems -/

/-- Claim C1: for every query, optional context and knowledge index, keyword
retrieval (`_retrieve_from_simple_index`) scores each returned item as
`N / max(1, M)` where the qualifying terms are the distinct lowercased
whitespace tokens of length > 3 of the query (and truthy context) minus the
stop words, `M` is their number, and `N` counts the qualifying terms that
occur as substrings of the item's lowercased text; items with `N = 0` never
appear, and `M = 0` forces an empty result. -/
theorem claim_c1 (idx : KnowledgeIndex) (query : Str) (context : Option Str) :
    (queryTerms query context).Nodup ∧
    (∀ t ∈ queryTerms query context, 3 < t.length ∧ t ∉ stopWords) ∧
    (∀ r ∈ retrieveFromSimpleIndex idx query context,
       0 < itemScore (queryTerms query context) r.text ∧
       r.relevance_score = (itemScore (queryTerms query context) r.text : ℚ) /
         ((max 1 (queryTerms query context).length : ℕ) : ℚ)) ∧
    ((queryTerms query context).length = 0 →
       retrieveFromSimpleIndex idx query context = []) := by
  refine ⟨nodup_queryTerms query context, fun t ht => mem_queryTerms ht, ?_, ?_⟩
  · intro r hr
    obtain ⟨p, hp, hscore⟩ := mem_retrieveFromSimpleIndex hr
    obtain ⟨hpos, rfl⟩ := scoreItem_eq_some hscore
    exact ⟨hpos, mkRat_natCast_eq_div _ _⟩
  · intro hlen
    have hnil : queryTerms query context = [] := List.length_eq_zero.1 hlen
    unfold retrieveFromSimpleIndex
    rw [hnil, filterMap_scoreItem_nil]
    rfl

/-- Witness for C1 at a concrete one-item index and one-term query. -/
theorem claim_c1_witness :
    (⟨"k1".data, "alpha beta".data, "s".data, mkRat 1 1⟩ : RInfo) ∈
        retrieveFromSimpleIndex
          [("k1".data, ⟨some "alpha beta".data, some "s".data, none⟩)]
          "alpha".data none ∧
    (0 < itemScore (queryTerms "alpha".data none) "alpha beta".data ∧
     (mkRat 1 1 : ℚ) = (itemScore (queryTerms "alpha".data none) "alpha beta".data : ℚ) /
       ((max 1 (queryTerms "alpha".data none).length : ℕ) : ℚ)) := by
  have hmem : (⟨"k1".data, "alpha beta".data, "s".data, mkRat 1 1⟩ : RInfo) ∈
      retrieveFromSimpleIndex
        [("k1".data, ⟨some "alpha beta".data, some "s".data, none⟩)]
        "alpha".data none := by decide
  exact ⟨hmem,
    (claim_c1 [("k1".data, ⟨some "alpha beta".data, some "s".data, none⟩)]
      "alpha".data none).2.2.1 _ hmem⟩

/-- After any `retrieve_and_generate` call, the cache holds the returned
result at the call's key. -/
theorem lookup_after_rg (gen : GenOracle) (s : RAGState) (q : Str) (c : Option Str) :
    lookupA (cacheKey q c) ((retrieveAndGenerate gen s q c).2.1).retrieval_cache
      = some (retrieveAndGenerate gen s q c).1 := by
  unfold retrieveAndGenerate
  cases h : lookupA (cacheKey q c) s.retrieval_cache with
  | some r => simp [h]
  | none => simp [h, lookupA_insertA_self]

/-- Claim C2: a second `retrieve_and_generate` call with identical arguments
returns the first call's result unchanged, leaves the state untouched, and
performs no retrieval and no external completion call — for any oracle
behaviour on the second call and any intermediate state `s2` that kept the
cache of the first call (in particular, however the knowledge index was
modified in between). -/
theorem claim_c2 (gen1 gen2 : GenOracle) (s s2 : RAGState) (q : Str) (c : Option Str)
    (hcache : s2.retrieval_cache = ((retrieveAndGenerate gen1 s q c).2.1).retrieval_cache) :
    retrieveAndGenerate gen2 s2 q c =
      ((retrieveAndGenerate gen1 s q c).1, s2, ⟨0, 0⟩) := by
  have hl : lookupA (cacheKey q c) s2.retrieval_cache
      = some (retrieveAndGenerate gen1 s q c).1 := by
    rw [hcache]; exact lookup_after_rg gen1 s q c
  unfold retrieveAndGenerate
  rw [hl]
  rfl

/-- Witness for C2: a concrete first call on an empty cache, then the second
call with the state produced by the first. -/
theorem claim_c2_witness :
    retrieveAndGenerate (fun _ _ => Except.error [])
        ((retrieveAndGenerate (fun _ _ => Except.error [])
            ⟨[], [], []⟩ "q".data none).2.1) "q".data none =
      ((retrieveAndGenerate (fun _ _ => Except.error [])
          ⟨[], [], []⟩ "q".data none).1,
       (retrieveAndGenerate (fun _ _ => Except.error [])
          ⟨[], [], []⟩ "q".data none).2.1, ⟨0, 0⟩) :=
  claim_c2 _ _ _ _ _ _ rfl

/-- Claim C10: `retrieve_and_generate` leaves the knowledge index unchanged,
and `add_to_knowledge_base` leaves the retrieval cache unchanged (no cached
entry is removed or overwritten by an add). -/
theorem claim_c10 (gen : GenOracle) (s : RAGState) (q : Str) (c : Option Str)
    (text source : Str) (item_id : Option Str) (now : Str) :
    ((retrieveAndGenerate gen s q c).2.1).knowledge_index = s.knowledge_index ∧
    ((addToKnowledgeBase s text source item_id now).2.1).retrieval_cache =
      s.retrieval_cache := by
  constructor
  · unfold retrieveAndGenerate
    cases h : lookupA (cacheKey q c) s.retrieval_cache <;> simp
  · rfl
/-! ## Structural well-formedness of responses and the cache invariant -/

/-- A response dict is well-formed when its `sources` list is exactly the
`source` field of each retrieved item, in order.  (That the dict has exactly
the keys `query`, `retrieved_information`, `response`, `sources` is the type
`RAGResult` itself.) -/
def WFResult (r : RAGResult) : Prop :=
  r.sources = r.retrieved_information.map RInfo.source

/-- Reachability invariant of the processor: every cached value was built by
`retrieve_and_generate` itself, hence is well-formed, and — the API key
being fixed for the life of the process — carries the no-key fallback marker
whenever no key is configured. -/
def CacheInv (s : RAGState) : Prop :=
  ∀ p ∈ s.retrieval_cache,
    WFResult p.2 ∧ (s.openai_api_key = [] → p.2.response = fallbackNoKey)

/-- The response text produced on a cache miss: the no-key marker, the
oracle's completion, or the error marker. -/
def rgResponse (gen : GenOracle) (s : RAGState) (q : Str) (c : Option Str) : Str :=
  if s.openai_api_key.isEmpty then fallbackNoKey
  else
    match gen q (retrieveFromSimpleIndex s.knowledge_index q c) with
    | Except.ok content => content
    | Except.error _ => fallbackError

/-- The response dict built on a cache miss. -/
def rgResult (gen : GenOracle) (s : RAGState) (q : Str) (c : Option Str) : RAGResult :=
  { query := q,
    retrieved_information := retrieveFromSimpleIndex s.knowledge_index q c,
    response := rgResponse gen s q c,
    sources := (retrieveFromSimpleIndex s.knowledge_index q c).map RInfo.source }

/-- On a cache hit, `retrieve_and_generate` returns the cached dict and
changes nothing. -/
theorem rg_hit (gen : GenOracle) (s : RAGState) (q : Str) (c : Option Str)
    (r : RAGResult) (hq : lookupA (cacheKey q c) s.retrieval_cache = some r) :
    retrieveAndGenerate gen s q c = (r, s, ⟨0, 0⟩) := by
  unfold retrieveAndGenerate
  rw [hq]

/-- On a cache miss, `retrieve_and_generate` builds `rgResult` and caches
it under the call's key. -/
theorem rg_miss_result (gen : GenOracle) (s : RAGState) (q : Str) (c : Option Str)
    (hq : lookupA (cacheKey q c) s.retrieval_cache = none) :
    retrieveAndGenerate gen s q c =
      (rgResult gen s q c,
       { s with retrieval_cache :=
           insertA (cacheKey q c) (rgResult gen s q c) s.retrieval_cache },
       ⟨1, if s.openai_api_key.isEmpty then 0 else 1⟩) := by
  unfold retrieveAndGenerate rgResult rgResponse
  rw [hq]
  by_cases hk : s.openai_api_key.isEmpty
  · simp [hk]
  · simp only [if_neg hk]
    cases gen q (retrieveFromSimpleIndex s.knowledge_index q c) <;> simp

/-- Claim C3: `retrieve_and_generate` is total (the model returns a plain
`RAGResult`, never an exception) and always yields a dict with exactly the
keys `query`, `retrieved_information`, `response`, `sources`, where
`sources` lists the source fields of the retrieved items in order; with no
API key configured the response is the no-key fallback marker, and on a
fresh query whose one completion attempt fails it is the error fallback
marker. -/
theorem claim_c3 (gen : GenOracle) (s : RAGState) (q : Str) (c : Option Str)
    (hinv : CacheInv s) :
    WFResult (retrieveAndGenerate gen s q c).1 ∧
    CacheInv (retrieveAndGenerate gen s q c).2.1 ∧
    (s.openai_api_key = [] →
       (retrieveAndGenerate gen s q c).1.response = fallbackNoKey) ∧
    (∀ e, lookupA (cacheKey q c) s.retrieval_cache = none →
       s.openai_api_key ≠ [] →
       gen q (retrieveFromSimpleIndex s.knowledge_index q c) = Except.error e →
       (retrieveAndGenerate gen s q c).1.response = fallbackError) := by
  cases hq : lookupA (cacheKey q c) s.retrieval_cache with
  | some r =>
    have hr := hinv _ (mem_of_lookupA hq)
    rw [rg_hit gen s q c r hq]
    dsimp only
    exact ⟨hr.1, hinv, fun hk => hr.2 hk, fun e hnone => absurd hnone (by simp)⟩
  | none =>
    rw [rg_miss_result gen s q c hq]
    dsimp only
    refine ⟨rfl, ?_, ?_, ?_⟩
    · intro p hp
      rcases mem_insertA hp with rfl | hmem
      · refine ⟨rfl, fun hkey => ?_⟩
        have hkey' : s.openai_api_key = [] := hkey
        show rgResponse gen s q c = fallbackNoKey
        unfold rgResponse
        rw [if_pos (by simp [hkey'])]
      · exact hinv _ hmem
    · intro hkey
      show rgResponse gen s q c = fallbackNoKey
      unfold rgResponse
      rw [if_pos (by simp [hkey])]
    · intro e hnone hne hgen
      show rgResponse gen s q c = fallbackError
      unfold rgResponse
      rw [if_neg (fun h => hne (List.isEmpty_iff.1 h)), hgen]

/-- Witness for C3: a fresh processor with no API key and empty cache. -/
theorem claim_c3_witness :
    CacheInv ⟨[], [], []⟩ ∧
    (retrieveAndGenerate (fun _ _ => Except.error []) ⟨[], [], []⟩
        "q".data none).1.response = fallbackNoKey := by
  have hinv : CacheInv (⟨[], [], []⟩ : RAGState) :=
    fun p hp => absurd hp (List.not_mem_nil p)
  exact ⟨hinv, (claim_c3 _ _ _ _ hinv).2.2.1 rfl⟩

/-- Claim C7: per `retrieve_and_generate` call, the external completion
endpoint is invoked at most once — exactly once on a cache miss with an API
key configured, zero times otherwise —, retrieval runs at most once, and if
the one completion attempt fails the call terminates in the fallback result
built over the already-retrieved items (no retry). -/
theorem claim_c7 (gen : GenOracle) (s : RAGState) (q : Str) (c : Option Str) :
    (retrieveAndGenerate gen s q c).2.2.externalCalls ≤ 1 ∧
    ((retrieveAndGenerate gen s q c).2.2.externalCalls = 1 ↔
      s.openai_api_key ≠ [] ∧ lookupA (cacheKey q c) s.retrieval_cache = none) ∧
    (retrieveAndGenerate gen s q c).2.2.retrievals ≤ 1 ∧
    (∀ e, lookupA (cacheKey q c) s.retrieval_cache = none →
       s.openai_api_key ≠ [] →
       gen q (retrieveFromSimpleIndex s.knowledge_index q c) = Except.error e →
       (retrieveAndGenerate gen s q c).1.response = fallbackError ∧
       (retrieveAndGenerate gen s q c).1.retrieved_information =
         retrieveFromSimpleIndex s.knowledge_index q c) := by
  cases hq : lookupA (cacheKey q c) s.retrieval_cache with
  | some r =>
    rw [rg_hit gen s q c r hq]
    dsimp only
    refine ⟨by omega, ?_, by omega, fun e hnone => absurd hnone (by simp)⟩
    constructor
    · intro h
      cases h
    · rintro ⟨-, hnone⟩
      exact absurd hnone (by simp)
  | none =>
    rw [rg_miss_result gen s q c hq]
    dsimp only
    by_cases hk : s.openai_api_key.isEmpty
    · have hkey := List.isEmpty_iff.1 hk
      rw [if_pos hk]
      refine ⟨by omega, ?_, by omega, fun e hnone hne hgen => absurd hkey hne⟩
      constructor
      · intro h
        cases h
      · rintro ⟨hne, -⟩
        exact absurd hkey hne
    · have hne' : s.openai_api_key ≠ [] := fun h => hk (by simp [h])
      rw [if_neg hk]
      refine ⟨by omega, ⟨fun _ => ⟨hne', rfl⟩, fun _ => rfl⟩, by omega,
        fun e hnone hne hgen => ?_⟩
      refine ⟨?_, rfl⟩
      show rgResponse gen s q c = fallbackError
      unfold rgResponse
      rw [if_neg hk, hgen]

/-- Witness for C7: a keyed processor whose one completion attempt fails. -/
theorem claim_c7_witness :
    (retrieveAndGenerate (fun _ _ => Except.error "boom".data)
        ⟨"k".data, [], []⟩ "q".data none).2.2.externalCalls = 1 ∧
    (retrieveAndGenerate (fun _ _ => Except.error "boom".data)
        ⟨"k".data, [], []⟩ "q".data none).1.response = fallbackError := by
  refine ⟨?_, ?_⟩
  · exact (claim_c7 (fun _ _ => Except.error "boom".data)
      ⟨"k".data, [], []⟩ "q".data none).2.1.2 ⟨by decide, rfl⟩
  · exact ((claim_c7 (fun _ _ => Except.error "boom".data)
      ⟨"k".data, [], []⟩ "q".data none).2.2.2 "boom".data rfl (by decide) rfl).1

/-- When no qualifying query term occurs in any item's text, keyword
retrieval is empty. -/
theorem retrieve_empty_of_nomatch (idx : KnowledgeIndex) (q : Str) (c : Option Str)
    (hnomatch : ∀ t ∈ queryTerms q c, ∀ p ∈ idx,
        containsSub t (pyLower p.2.text) = false) :
    retrieveFromSimpleIndex idx q c = [] := by
  unfold retrieveFromSimpleIndex
  have hnil : idx.filterMap (scoreItem (queryTerms q c)) = [] := by
    rw [List.filterMap_eq_nil_iff]
    intro p hp
    have hzero : itemScore (queryTerms q c) p.2.text = 0 := by
      unfold itemScore
      rw [List.length_eq_zero, List.filter_eq_nil_iff]
      intro t ht
      simp [hnomatch t ht p hp]
    simp [scoreItem, hzero]
  rw [hnil]
  rfl

/-- Claim C4, counterexample to the claim as stated: with an API key
configured and a completion call that succeeds, a query matching no
knowledge item still gets the oracle's text as response — not the fallback
marker — even though retrieval is empty.  (Concretely: empty index, fresh
cache, key "k", oracle answering "Hi".) -/
theorem claim_c4_counterexample :
    (retrieveAndGenerate (fun _ _ => Except.ok "Hi".data)
        ⟨"k".data, [], []⟩ "hello".data none).1.retrieved_information = [] ∧
    (retrieveAndGenerate (fun _ _ => Except.ok "Hi".data)
        ⟨"k".data, [], []⟩ "hello".data none).1.response = "Hi".data ∧
    "Hi".data ≠ fallbackNoKey ∧ "Hi".data ≠ fallbackError := by
  refine ⟨?_, ?_, by decide, by decide⟩ <;>
    · rw [rg_miss_result (fun _ _ => Except.ok "Hi".data)
        (⟨"k".data, [], []⟩ : RAGState) "hello".data none rfl]
      rfl

/-- Claim C4 (amended): for every *fresh* query (no cache entry) none of
whose qualifying terms occurs in any knowledge item's text,
`retrieve_and_generate` returns an empty `retrieved_information` list and an
empty source list, never raises (totality of the model), and — when no API
key is configured, or when the single completion attempt fails — its
response is the corresponding literal fallback marker. -/
theorem claim_c4_amended (gen : GenOracle) (s : RAGState) (q : Str) (c : Option Str)
    (hmiss : lookupA (cacheKey q c) s.retrieval_cache = none)
    (hnomatch : ∀ t ∈ queryTerms q c, ∀ p ∈ s.knowledge_index,
        containsSub t (pyLower p.2.text) = false) :
    (retrieveAndGenerate gen s q c).1.retrieved_information = [] ∧
    (retrieveAndGenerate gen s q c).1.sources = [] ∧
    (s.openai_api_key = [] →
       (retrieveAndGenerate gen s q c).1.response = fallbackNoKey) ∧
    (∀ e, s.openai_api_key ≠ [] →
       gen q (retrieveFromSimpleIndex s.knowledge_index q c) = Except.error e →
       (retrieveAndGenerate gen s q c).1.response = fallbackError) := by
  have hret := retrieve_empty_of_nomatch s.knowledge_index q c hnomatch
  rw [rg_miss_result gen s q c hmiss]
  dsimp only
  unfold rgResult
  rw [hret]
  refine ⟨rfl, rfl, fun hkey => ?_, fun e hne hgen => ?_⟩
  · show rgResponse gen s q c = fallbackNoKey
    unfold rgResponse
    rw [if_pos (by simp [hkey])]
  · show rgResponse gen s q c = fallbackError
    unfold rgResponse
    rw [if_neg (fun h => hne (List.isEmpty_iff.1 h)), hret, hgen]

/-- Witness for the amended C4: keyless processor, empty index, fresh
cache. -/
theorem claim_c4_amended_witness :
    lookupA (cacheKey "hello".data none) ([] : List (Str × RAGResult)) = none ∧
    (retrieveAndGenerate (fun _ _ => Except.error []) ⟨[], [], []⟩
        "hello".data none).1.retrieved_information = [] ∧
    (retrieveAndGenerate (fun _ _ => Except.error []) ⟨[], [], []⟩
        "hello".data none).1.response = fallbackNoKey := by
  have h := claim_c4_amended (fun _ _ => Except.error []) ⟨[], [], []⟩
    "hello".data none rfl (fun t ht p hp => absurd hp (List.not_mem_nil p))
  exact ⟨rfl, h.1, h.2.2.1 rfl⟩

/-- Claim C5, counterexample to the claim as stated: the cache key hashes
`query + "_" + (context or "")`, so the distinct pairs `("a", "b_c")` and
`("a_b", "c")` produce the same joined string `"a_b_c"` and hence the same
cache key — a collision between different (query, context) pairs. -/
theorem claim_c5_counterexample :
    cacheKey "a".data (some "b_c".data) = cacheKey "a_b".data (some "c".data) ∧
    ¬ (("a".data, some "b_c".data) = ("a_b".data, some "c".data)) :=
  ⟨congrArg (fun z => md5hex (utf8Encode z)) (by decide), by decide⟩

/-- Claim C5 (amended): the cache key depends only on the underscore-joined
pair `query + "_" + (context or "")`; two pairs with equal joined strings —
which exist among distinct pairs, e.g. `("a", "b_c")` and `("a_b", "c")` —
always share a key, so key collisions between distinct (query, context)
pairs are possible. -/
theorem claim_c5_amended (q q2 : Str) (c c2 : Option Str)
    (h : joinKey q c = joinKey q2 c2) : cacheKey q c = cacheKey q2 c2 := by
  unfold cacheKey
  rw [h]

/-- Witness for the amended C5 at the concrete colliding pair. -/
theorem claim_c5_amended_witness :
    joinKey "a".data (some "b_c".data) = joinKey "a_b".data (some "c".data) ∧
    cacheKey "a".data (some "b_c".data) = cacheKey "a_b".data (some "c".data) :=
  ⟨by decide, claim_c5_amended _ _ _ _ (by decide)⟩

/-! ## Bounds and sortedness of both retrieval strategies -/

theorem score_bounds {idx : KnowledgeIndex} {q : Str} {c : Option Str} {r : RInfo}
    (h : r ∈ retrieveFromSimpleIndex idx q c) :
    0 ≤ r.relevance_score ∧ r.relevance_score ≤ 1 := by
  obtain ⟨p, hp, hs⟩ := mem_retrieveFromSimpleIndex h
  obtain ⟨hpos, rfl⟩ := scoreItem_eq_some hs
  constructor
  · show (0 : ℚ) ≤ mkRat (itemScore (queryTerms q c) p.2.text)
      (max 1 (queryTerms q c).length)
    rw [mkRat_natCast_eq_div]
    positivity
  · show mkRat (itemScore (queryTerms q c) p.2.text)
      (max 1 (queryTerms q c).length) ≤ 1
    rw [mkRat_natCast_eq_div, div_le_one
      (by exact_mod_cast Nat.lt_of_lt_of_le Nat.zero_lt_one (le_max_left 1 _))]
    have h1 : itemScore (queryTerms q c) p.2.text ≤ (queryTerms q c).length :=
      List.length_filter_le _ _
    exact_mod_cast le_trans h1 (le_max_right 1 _)

theorem sorted_retrieveFromSimpleIndex (idx : KnowledgeIndex) (q : Str)
    (c : Option Str) : (retrieveFromSimpleIndex idx q c).Sorted scoreGE := by
  unfold retrieveFromSimpleIndex
  exact List.Pairwise.sublist (List.take_sublist _ _)
    (List.sorted_insertionSort scoreGE _)

theorem length_retrieveFromSimpleIndex (idx : KnowledgeIndex) (q : Str)
    (c : Option Str) : (retrieveFromSimpleIndex idx q c).length ≤ 3 := by
  unfold retrieveFromSimpleIndex
  exact List.length_take_le _ _

/-- The sort-truncate-strip tail of `RAGPipeline.retrieve`, factored out for
reasoning (definitionally equal to the inlined form). -/
def retrieveGenCore {α : Type} [LinearOrder α] (top_k : Nat)
    (pairs : List (KItem × α)) : List (RetItem α) :=
  ((pairs.insertionSort simGE).take top_k).map (fun p =>
    { title := p.1.title, topic? := p.1.topic?, content := p.1.content,
      source := p.1.source, relevance_score := p.2 })

theorem retrieveGen_eq_core {α : Type} [LinearOrder α] (sim : List ℚ → List ℚ → α)
    (enc : Str → List ℚ) (kb : List KItem) (query topic : Str) (top_k : Nat) :
    retrieveGen sim enc kb query topic top_k =
      (if kb.isEmpty then []
       else
         let candidates :=
           if topic.isEmpty then kb
           else kb.filter (fun it => containsSub (pyLower topic) (pyLower it.topic))
         if candidates.isEmpty then []
         else retrieveGenCore top_k
           (candidates.map (fun it => (it, sim (enc query) it.embedding)))) := rfl

theorem length_retrieveGenCore {α : Type} [LinearOrder α] (k : Nat)
    (pairs : List (KItem × α)) : (retrieveGenCore k pairs).length ≤ k := by
  unfold retrieveGenCore
  rw [List.length_map]
  exact List.length_take_le _ _

theorem sorted_retrieveGenCore {α : Type} [LinearOrder α] (k : Nat)
    (pairs : List (KItem × α)) :
    (retrieveGenCore k pairs).Sorted
      (fun a b => b.relevance_score ≤ a.relevance_score) := by
  unfold retrieveGenCore
  exact List.Pairwise.map _ (fun a b hab => hab)
    (List.Pairwise.sublist (List.take_sublist _ _)
      (List.sorted_insertionSort simGE _))

theorem length_retrieveGen {α : Type} [LinearOrder α] (sim : List ℚ → List ℚ → α)
    (enc : Str → List ℚ) (kb : List KItem) (query topic : Str) (top_k : Nat) :
    (retrieveGen sim enc kb query topic top_k).length ≤ top_k := by
  rw [retrieveGen_eq_core]
  split
  · simp
  · dsimp only
    repeat' split
    all_goals
      first
        | simp
        | exact length_retrieveGenCore _ _

theorem sorted_retrieveGen {α : Type} [LinearOrder α] (sim : List ℚ → List ℚ → α)
    (enc : Str → List ℚ) (kb : List KItem) (query topic : Str) (top_k : Nat) :
    (retrieveGen sim enc kb query topic top_k).Sorted
      (fun a b => b.relevance_score ≤ a.relevance_score) := by
  rw [retrieveGen_eq_core]
  split
  · simp
  · dsimp only
    repeat' split
    all_goals
      first
        | simp
        | exact sorted_retrieveGenCore _ _

/-- Claim C6, counterexample to the claim as stated: the embedding strategy
attaches raw cosine similarities, which can be negative; with a stored
vector `[1]` and a query encoded as `[-1]` the single returned item carries
relevance score `-1`, which does not lie in `[0, 1]`. -/
theorem claim_c6_counterexample :
    (retrieveGen cosineSim (fun _ => [(-1 : ℚ)])
        [⟨"t".data, none, "c".data, "s".data, [(1 : ℚ)]⟩] "q".data [] 3).map
      (fun r => r.relevance_score) = [(-1 : ℝ)] ∧
    ¬ ((0 : ℝ) ≤ (-1 : ℝ)) := by
  refine ⟨?_, by norm_num⟩
  rw [retrieveGen_eq_core]
  simp only [List.isEmpty_cons, List.isEmpty_nil, Bool.false_eq_true, if_false,
    if_true, retrieveGenCore, List.map_cons, List.map_nil, List.insertionSort,
    List.orderedInsert, List.take_succ_cons, List.take_nil]
  have hcos : cosineSim [(-1 : ℚ)] [(1 : ℚ)] = (-1 : ℝ) := by
    unfold cosineSim dotQ
    norm_num [Real.sqrt_one]
  rw [hcos]

/-- Claim C6 (amended): both strategies return at most K items (keyword K
hard-wired to 3, embedding K = `top_k`), each sorted non-increasingly by the
attached `relevance_score`; every keyword score lies in [0, 1].  (The
embedding scores are raw cosine similarities in [-1, 1] and can be negative,
as the counterexample shows, so the [0, 1] range holds only for the keyword
strategy.) -/
theorem claim_c6_amended :
    (∀ (idx : KnowledgeIndex) (q : Str) (c : Option Str),
       (retrieveFromSimpleIndex idx q c).length ≤ 3 ∧
       (retrieveFromSimpleIndex idx q c).Sorted scoreGE ∧
       ∀ r ∈ retrieveFromSimpleIndex idx q c,
         0 ≤ r.relevance_score ∧ r.relevance_score ≤ 1) ∧
    (∀ (enc : Str → List ℚ) (kb : List KItem) (q topic : Str) (top_k : Nat),
       (retrieveGen cosineSim enc kb q topic top_k).length ≤ top_k ∧
       (retrieveGen cosineSim enc kb q topic top_k).Sorted
         (fun a b => b.relevance_score ≤ a.relevance_score)) :=
  ⟨fun idx q c => ⟨length_retrieveFromSimpleIndex idx q c,
      sorted_retrieveFromSimpleIndex idx q c, fun _ hr => score_bounds hr⟩,
   fun enc kb q topic top_k => ⟨length_retrieveGen cosineSim enc kb q topic top_k,
      sorted_retrieveGen cosineSim enc kb q topic top_k⟩⟩

/-- Witness for the amended C6 at a concrete one-item index. -/
theorem claim_c6_amended_witness :
    ((⟨"k1".data, "alpha beta".data, "s".data, mkRat 1 1⟩ : RInfo) ∈
        retrieveFromSimpleIndex
          [("k1".data, ⟨some "alpha beta".data, some "s".data, none⟩)]
          "alpha".data none) ∧
    (0 ≤ (mkRat 1 1 : ℚ) ∧ (mkRat 1 1 : ℚ) ≤ 1) := by
  have hmem : (⟨"k1".data, "alpha beta".data, "s".data, mkRat 1 1⟩ : RInfo) ∈
      retrieveFromSimpleIndex
        [("k1".data, ⟨some "alpha beta".data, some "s".data, none⟩)]
        "alpha".data none := by decide
  exact ⟨hmem, (claim_c6_amended.1 _ "alpha".data none).2.2 _ hmem⟩

/-! ## Default synthesis on empty loads (claim C8) -/

/-- Claim C8, counterexample to the claim as stated: an existing
`knowledge_index.json` that parses to an *empty* index is a directory state
from which loading yields no knowledge items, yet `_load_knowledge_index`
returns it verbatim — no default set is synthesized and nothing is
persisted. -/
theorem claim_c8_counterexample :
    loadKnowledgeIndex (some (some [])) "t".data = ([], none) ∧
    defaultIndex "t".data ≠ [] :=
  ⟨rfl, by decide⟩

/-- Claim C8 (amended): the embedding pipeline synthesizes, persists and
installs the built-in sample set whenever the knowledge directory yields no
items; the keyword processor synthesizes, persists and installs its default
index only when the index file is missing or unparseable — an existing file
that parses (even to an empty index) is installed verbatim without
defaulting. -/
theorem claim_c8_amended :
    (∀ (enc : Str → List ℚ) (files : List (Option (List KItemJ))),
       (files.filterMap id).flatten = [] →
       loadKnowledgeBase enc files =
         (sampleKnowledge.map (attachEmbedding enc), some sampleKnowledge)) ∧
    (∀ now, loadKnowledgeIndex none now = (defaultIndex now, some (defaultIndex now)) ∧
       loadKnowledgeIndex (some none) now =
         (defaultIndex now, some (defaultIndex now))) ∧
    (∀ idx now, loadKnowledgeIndex (some (some idx)) now = (idx, none)) := by
  refine ⟨?_, fun now => ⟨rfl, rfl⟩, fun idx now => rfl⟩
  intro enc files h
  unfold loadKnowledgeBase
  rw [h]
  rfl

/-- Witness for the amended C8: an empty knowledge directory yields the
sample set. -/
theorem claim_c8_amended_witness :
    ((([] : List (Option (List KItemJ))).filterMap id).flatten = []) ∧
    loadKnowledgeBase (fun _ => []) [] =
      (sampleKnowledge.map (attachEmbedding (fun _ => [])), some sampleKnowledge) :=
  ⟨rfl, claim_c8_amended.1 (fun _ => []) [] rfl⟩

/-! ## Knowledge-base add (claim C9) -/

theorem length_filterMap_scoreItem (terms : List Str) (l : KnowledgeIndex) :
    (l.filterMap (scoreItem terms)).length =
      (l.filter (fun p => 0 < itemScore terms p.2.text)).length := by
  induction l with
  | nil => rfl
  | cons p rest ih =>
    by_cases h : 0 < itemScore terms p.2.text
    · simp [scoreItem, h, List.filterMap_cons, List.filter_cons, ih]
    · simp [scoreItem, h, List.filterMap_cons, List.filter_cons, ih]

/-- Claim C9, counterexample to the claim as stated: when the caller
supplies an id that is already present, `add_to_knowledge_base` overwrites
the existing record in place — the store does not grow by one (here it stays
at one record, now holding the new text). -/
theorem claim_c9_counterexample :
    (addToKnowledgeBase
        ⟨[], [("a".data, ⟨some "old".data, some "s".data, none⟩)], []⟩
        "new text".data "src".data (some "a".data) "n".data).2.1.knowledge_index.length
      = 1 ∧
    ([("a".data, (⟨some "old".data, some "s".data, none⟩ : ItemData))] :
        KnowledgeIndex).length = 1 ∧
    lookupA "a".data
        (addToKnowledgeBase
          ⟨[], [("a".data, ⟨some "old".data, some "s".data, none⟩)], []⟩
          "new text".data "src".data (some "a".data) "n".data).2.1.knowledge_index
      = some ⟨some "new text".data, some "src".data, some "n".data⟩ := by
  refine ⟨?_, rfl, ?_⟩ <;> decide

/-- Claim C9 (amended): provided the id about to be used is not already a
key of the store, `add_to_knowledge_base` appends exactly one record (the
store grows by exactly one), persists the updated index (which a reload
returns verbatim), uses a supplied non-empty id verbatim and otherwise
derives the id from content, source and timestamp (first 12 hex characters
of their md5); and the new item is retrieved by any query one of whose
qualifying terms occurs in the new text, provided at most two other stored
items match the query at all (top-3 cutoff). -/
theorem claim_c9_amended (s : RAGState) (text source : Str)
    (item_id : Option Str) (now : Str)
    (hfresh : addId text source item_id now ∉ s.knowledge_index.map Prod.fst) :
    (addToKnowledgeBase s text source item_id now).2.1.knowledge_index =
        s.knowledge_index ++
          [(addId text source item_id now, ⟨some text, some source, some now⟩)] ∧
    (addToKnowledgeBase s text source item_id now).2.1.knowledge_index.length =
        s.knowledge_index.length + 1 ∧
    (addToKnowledgeBase s text source item_id now).2.2 =
        (addToKnowledgeBase s text source item_id now).2.1.knowledge_index ∧
    loadKnowledgeIndex
        (some (some (addToKnowledgeBase s text source item_id now).2.2)) now =
      ((addToKnowledgeBase s text source item_id now).2.2, none) ∧
    ((item_id = none ∨ item_id = some []) →
       (addToKnowledgeBase s text source item_id now).1 =
         (md5hex (utf8Encode (text ++ "_".data ++ source ++ "_".data ++ now))).take 12) ∧
    (∀ i, item_id = some i → i ≠ [] →
       (addToKnowledgeBase s text source item_id now).1 = i) ∧
    (∀ q c, (∃ t ∈ queryTerms q c, containsSub t (pyLower text) = true) →
       (s.knowledge_index.filter
           (fun p => 0 < itemScore (queryTerms q c) p.2.text)).length ≤ 2 →
       ∃ r ∈ retrieveFromSimpleIndex
           (addToKnowledgeBase s text source item_id now).2.1.knowledge_index q c,
         r.id = addId text source item_id now ∧ r.text = text ∧
         r.source = source) := by
  have happ : insertA (addId text source item_id now)
      ⟨some text, some source, some now⟩ s.knowledge_index =
      s.knowledge_index ++
        [(addId text source item_id now, ⟨some text, some source, some now⟩)] :=
    insertA_of_fresh _ hfresh
  refine ⟨happ, ?_, rfl, rfl, ?_, ?_, ?_⟩
  · show (insertA (addId text source item_id now)
        ⟨some text, some source, some now⟩ s.knowledge_index).length =
      s.knowledge_index.length + 1
    rw [happ, List.length_append]
    rfl
  · rintro (rfl | rfl) <;> rfl
  · intro i hi hne
    subst hi
    show addId text source (some i) now = i
    unfold addId
    dsimp only
    rw [if_neg (fun h => hne (List.isEmpty_iff.1 h))]
  · intro q c hterm hcount
    obtain ⟨t, ht, hmatch⟩ := hterm
    have hscore : 0 < itemScore (queryTerms q c) text := by
      unfold itemScore
      exact List.length_pos.2
        (List.ne_nil_of_mem (List.mem_filter.2 ⟨ht, hmatch⟩))
    have hsome : scoreItem (queryTerms q c)
        (addId text source item_id now, ⟨some text, some source, some now⟩) =
        some ⟨addId text source item_id now, text, source,
          mkRat (itemScore (queryTerms q c) text) (max 1 (queryTerms q c).length)⟩ := by
      unfold scoreItem
      dsimp only [ItemData.text, ItemData.source, Option.getD]
      rw [if_pos hscore]
    have hres : (s.knowledge_index ++
        [(addId text source item_id now,
          (⟨some text, some source, some now⟩ : ItemData))]).filterMap
          (scoreItem (queryTerms q c)) =
        s.knowledge_index.filterMap (scoreItem (queryTerms q c)) ++
          [(⟨addId text source item_id now, text, source,
            mkRat (itemScore (queryTerms q c) text)
              (max 1 (queryTerms q c).length)⟩ : RInfo)] := by
      rw [List.filterMap_append]
      congr 1
      simp [hsome]
    refine ⟨(⟨addId text source item_id now, text, source,
      mkRat (itemScore (queryTerms q c) text)
        (max 1 (queryTerms q c).length)⟩ : RInfo),
      ?_, rfl, rfl, rfl⟩
    show _ ∈ retrieveFromSimpleIndex (insertA (addId text source item_id now)
      ⟨some text, some source, some now⟩ s.knowledge_index) q c
    unfold retrieveFromSimpleIndex
    rw [happ]
    have hsortlen : (((s.knowledge_index ++
        [(addId text source item_id now,
          (⟨some text, some source, some now⟩ : ItemData))]).filterMap
          (scoreItem (queryTerms q c))).insertionSort scoreGE).length ≤ 3 := by
      rw [List.length_insertionSort, hres, List.length_append,
        length_filterMap_scoreItem]
      simp only [List.length_singleton]
      omega
    rw [List.take_of_length_le hsortlen, List.mem_insertionSort, hres]
    exact List.mem_append_right _ (List.mem_singleton.2 rfl)

/-- Witness for the amended C9: a fresh supplied id on an empty store, and
retrieval of the new item by one of its own words. -/
theorem claim_c9_amended_witness :
    (addId "zebra stripes".data "src".data (some "b".data) "n".data ∉
        ([] : KnowledgeIndex).map Prod.fst) ∧
    (addToKnowledgeBase ⟨[], [], []⟩ "zebra stripes".data "src".data
        (some "b".data) "n".data).2.1.knowledge_index.length =
      ([] : KnowledgeIndex).length + 1 ∧
    (∃ r ∈ retrieveFromSimpleIndex
        (addToKnowledgeBase ⟨[], [], []⟩ "zebra stripes".data "src".data
          (some "b".data) "n".data).2.1.knowledge_index "zebra".data none,
      r.id = addId "zebra stripes".data "src".data (some "b".data) "n".data ∧
      r.text = "zebra stripes".data ∧ r.source = "src".data) := by
  have h := claim_c9_amended ⟨[], [], []⟩ "zebra stripes".data "src".data
    (some "b".data) "n".data (by decide)
  exact ⟨by decide, h.2.1,
    h.2.2.2.2.2.2 "zebra".data none (by decide) (by decide)⟩
